import Mathlib

/-
Verification of sighelper.py: per-file string extraction (dexstrings and the
strings command), size filtering, per-archive aggregation, a running
intersection across archives, a provenance map, and the final report.
Subprocess results are modelled as Except values (error = CalledProcessError);
file contents are abstracted to the line lists the tools would print.
-/

namespace SigHelper

/-- Python whitespace characters recognised by str.strip(). -/
def pyIsSpace (c : Char) : Bool :=
  c = ' ' || c = '\t' || c = '\n' || c = '\r' || c = '\x0b' || c = '\x0c'

/-- Python s.strip(): drop leading and trailing whitespace. -/
def pyStrip (s : String) : String :=
  ((s.data.dropWhile pyIsSpace).reverse.dropWhile pyIsSpace).reverse.asString

/-- Value of a base-10 digit list. -/
def digitsToNat (l : List Char) : Nat :=
  l.foldl (fun acc c => acc * 10 + (c.toNat - 48)) 0

/-- Python int(s) on a string: surrounding whitespace allowed, optional sign,
then one or more base-10 digits; anything else raises ValueError (none). -/
def pyParseInt (s : String) : Option Int :=
  let t := (pyStrip s).data
  let core : Option (Bool × List Char) :=
    match t with
    | [] => none
    | c :: rest =>
      if c = '-' then some (true, rest)
      else if c = '+' then some (false, rest)
      else some (false, t)
  match core with
  | none => none
  | some (neg, ds) =>
    if ds = [] then none
    else if ds.all (fun c => c.isDigit) then
      some (if neg then -(digitsToNat ds : Int) else (digitsToNat ds : Int))
    else none

/-- Helper for Python s.split with a one-character separator. -/
def splitCharAux (sep : Char) : List Char → List Char → List String
  | [], acc => [acc.reverse.asString]
  | c :: rest, acc =>
    if c = sep then acc.reverse.asString :: splitCharAux sep rest []
    else splitCharAux sep rest (c :: acc)

/-- Python s.split with a one-character separator (source uses s.split with the pipe). -/
def pySplitPipe (s : String) : List String :=
  splitCharAux '|' s.data []

/-- Python join with the pipe character as separator. -/
def joinPipe : List String → String
  | [] => ""
  | [x] => x
  | x :: rest => x ++ "|" ++ joinPipe rest

/-- Remove the first occurrence of needle from s: Python s.replace(needle, empty, 1)
on char lists. An empty needle is a prefix of everything, so nothing changes. -/
def listReplaceFirst : List Char → List Char → List Char
  | [], _ => []
  | c :: rest, needle =>
    if needle.isPrefixOf (c :: rest) then (c :: rest).drop needle.length
    else c :: listReplaceFirst rest needle

/-- Python s.replace(needle, empty, 1) on strings. -/
def pyReplaceFirst (s needle : String) : String :=
  (listReplaceFirst s.data needle.data).asString

/-- Python s[4:-2]. -/
def pySlice4m2 (s : String) : String :=
  ((s.data.take (s.data.length - 2)).drop 4).asString

/-- One dexstrings data line (lines 40-41): the line has the shape
ID | I1 | I2 | .:STRING:. ; the join of the first three pipe fields is removed
(first occurrence, which is the leading prefix), then s[4:-2] strips the
remaining pipe, the space and the 2-character markers around the payload.
The payload itself is not trimmed. -/
def dexLineToString (s : String) : String :=
  let needle := joinPipe ((pySplitPipe s).take 3)
  pySlice4m2 (pyReplaceFirst s needle)

/-- get_from_dexstrings (lines 26-43). Input: the subprocess result
(error = CalledProcessError, ok = output lines). First component: the set of
extracted strings (the first 4 header lines are dropped, the rest parsed);
second component: diagnostics printed by the function, which prints nothing —
on failure it just returns the empty set. -/
def get_from_dexstrings (output : Except Unit (List String)) :
    Finset String × List String :=
  match output with
  | Except.error _ => (∅, [])
  | Except.ok lines => (((lines.drop 4).map dexLineToString).toFinset, [])

/-- get_from_strings_cmd (lines 45-57). The subprocess is not wrapped in
try/except, so a CalledProcessError propagates; on success each output line is
stripped of surrounding whitespace and collected into a set. -/
def get_from_strings_cmd (output : Except Unit (List String)) :
    Except Unit (Finset String) :=
  match output with
  | Except.error e => Except.error e
  | Except.ok lines => Except.ok ((lines.map pyStrip).toFinset)

/-- get_strings_from_file (lines 59-67): union of the dexstrings set and the
strings-cmd set; a strings-cmd failure propagates. -/
def get_strings_from_file (dexOut strOut : Except Unit (List String)) :
    Except Unit (Finset String) :=
  let dexstrings := (get_from_dexstrings dexOut).1
  match get_from_strings_cmd strOut with
  | Except.error e => Except.error e
  | Except.ok strings => Except.ok (dexstrings ∪ strings)

/-- filter_by_size (lines 106-115). int(strings_len) is evaluated inside the
loop body, so on an empty set it is never reached and the set is returned
unchanged; on a nonempty set an unparsable strings_len raises ValueError at
the first element, otherwise exactly the strings shorter than the parsed bound
are removed. -/
def filter_by_size (strings : Finset String) (strings_len : String) :
    Except Unit (Finset String) :=
  if strings = ∅ then Except.ok strings
  else
    match pyParseInt strings_len with
    | none => Except.error ()
    | some n => Except.ok (strings.filter (fun s => ¬ ((s.length : Int) < n)))

/-- The provenance dict map_strings: its key set together with the lookup
function (lookup of a missing key raises KeyError, which the key set decides). -/
structure StrMap where
  keys : Finset String
  get : String → Finset String

/-- The empty dict, line 144. -/
def emptyStrMap : StrMap := ⟨∅, fun _ => ∅⟩

/-- add_strings_to_map (lines 93-104): for each string ensure an entry exists
and add file_path:apk to its location set. -/
def add_strings_to_map (map_strings : StrMap) (strings : Finset String)
    (file_path apk : String) : StrMap :=
  let file_combo := file_path ++ ":" ++ apk
  { keys := map_strings.keys ∪ strings
    get := fun s =>
      if s ∈ strings then map_strings.get s ∪ {file_combo}
      else map_strings.get s }

/-- print_strings (lines 117-125) driven by a list enumeration of
common_strings: per string the dict is looked up (KeyError = none when the key
is missing) and the string is emitted with its location set. -/
def print_strings : List String → StrMap → Option (List (String × Finset String))
  | [], _ => some []
  | s :: rest, m =>
    if s ∈ m.keys then
      (print_strings rest m).map (fun l => (s, m.get s) :: l)
    else none

/-- Lines 162-166: fold step for common_strings; the emptiness check stands in
for the first-apk test, per the comment on line 162. -/
def step_common (common_strings str_curr_apk : Finset String) : Finset String :=
  if common_strings = ∅ then str_curr_apk
  else common_strings ∩ str_curr_apk

/-- Lines 146-166 reduced to the per-archive string sets: common_strings starts
as the empty set and is folded with step_common over the archives in order. -/
def batch_common (apk_sets : List (Finset String)) : Finset String :=
  apk_sets.foldl step_common ∅

/-- The os.walk loop, lines 154-161: each file carries the result of
get_strings_from_file plus filter_by_size (error = a propagating subprocess or
ValueError failure); on success the strings go into the map and into
str_curr_apk. -/
def walk_files (apk : String) :
    StrMap → Finset String → List (String × Except Unit (Finset String)) →
    Except Unit (StrMap × Finset String)
  | m, cur, [] => Except.ok (m, cur)
  | m, cur, (file_path, res) :: rest =>
    match res with
    | Except.error e => Except.error e
    | Except.ok strings =>
      walk_files apk (add_strings_to_map m strings file_path apk)
        (cur ∪ strings) rest

/-- One iteration of the apk loop, lines 150-168, with the scratch directory
made explicit. unzip_apk (lines 69-78) runs mkdtemp before opening the zip, so
an unzip failure leaves the directory behind (error = ExtractionError, ok = the
walked files). shutil.rmtree runs only after the file walk finishes (line 168);
there is no try/finally, so a propagating error skips it. The boolean is
whether the scratch directory still exists afterwards. -/
def process_apk (m : StrMap) (apk : String)
    (unzip_res : Except Unit (List (String × Except Unit (Finset String)))) :
    Except Unit (StrMap × Finset String) × Bool :=
  match unzip_res with
  | Except.error e => (Except.error e, true)
  | Except.ok files =>
    match walk_files apk m ∅ files with
    | Except.error e => (Except.error e, true)
    | Except.ok r => (Except.ok r, false)

/-- The apk loop, lines 147-168: process each archive, folding common_strings
with step_common; a propagating per-archive error aborts the run. -/
def run_loop :
    StrMap → Finset String →
    List (String × Except Unit (List (String × Except Unit (Finset String)))) →
    Except Unit (StrMap × Finset String)
  | m, common, [] => Except.ok (m, common)
  | m, common, (apk, uz) :: rest =>
    match (process_apk m apk uz).1 with
    | Except.error e => Except.error e
    | Except.ok (m2, cur) => run_loop m2 (step_common common cur) rest

/-- Lines 144-171: run the apk loop from the empty map and empty
common_strings, then emit the single warning when no common strings were
found. The result carries the map, common_strings and the warning messages. -/
def main_run
    (apks : List (String × Except Unit (List (String × Except Unit (Finset String))))) :
    Except Unit (StrMap × Finset String × List String) :=
  match run_loop emptyStrMap ∅ apks with
  | Except.error e => Except.error e
  | Except.ok (m, common_strings) =>
    Except.ok (m, common_strings,
      if common_strings = ∅ then ["No common strings found"] else [])

/-- Process exit status: 0 on normal completion, nonzero when an uncaught
exception terminates the run. -/
def exit_code {α : Type} (r : Except Unit α) : Nat :=
  match r with
  | Except.ok _ => 0
  | Except.error _ => 1

/-- Lines 173-177: the final report prints common_strings itself. args.whitelist
is declared on line 130 but never read afterwards — no whitelist file is loaded
and no subtraction happens — so the whitelist argument plays no role. -/
def report_strings (common_strings whitelist : Finset String) : Finset String :=
  common_strings

/-- Follows the spec's words (section 4.6): result equals RunningIntersection
minus Whitelist, plain set subtraction. -/
def report_strings_spec (common_strings whitelist : Finset String) : Finset String :=
  common_strings \ whitelist

/-- Concrete one-archive batch used to instantiate the provenance theorem. -/
def apks0 : List (String × Except Unit (List (String × Except Unit (Finset String)))) :=
  [("a1", Except.ok [("f1", Except.ok {"hello"})])]

/-- The provenance map produced by apks0. -/
def m0 : StrMap := add_strings_to_map emptyStrMap {"hello"} "f1" "a1"

/-- C1: the program's report is common_strings unchanged — the whitelist is
parsed but never loaded or subtracted — so on intersection {abc, xyz} with
whitelist {xyz} the code reports both strings while the documented contract
(result = intersection minus whitelist) would report only abc. -/
theorem whitelist_subtraction_missing :
    report_strings {"abc", "xyz"} {"xyz"} = ({"abc", "xyz"} : Finset String)
    ∧ report_strings_spec {"abc", "xyz"} {"xyz"} = ({"abc"} : Finset String)
    ∧ report_strings {"abc", "xyz"} {"xyz"} ≠ report_strings_spec {"abc", "xyz"} {"xyz"} := by
  refine ⟨rfl, by decide, by decide⟩

/-- C2: evaluating the batch fold at per-archive sets [empty, single-string]
shows the running set is empty after the first archive yet regrows to the
second archive's set, instead of staying at the true two-archive
intersection, which is empty: the emptiness test meant to detect the first
archive also fires when the running intersection is empty. -/
theorem running_intersection_reseeds :
    batch_common [(∅ : Finset String)] = ∅
    ∧ batch_common [(∅ : Finset String), {"a"}] = {"a"}
    ∧ (∅ : Finset String) ∩ {"a"} = ∅ := by
  refine ⟨by decide, by decide, by decide⟩

/-- C3 counterexample: when the extractor fails on a contained file, the error
propagates out of per-archive processing and the scratch directory is NOT
removed — it still exists afterwards, refuting cleanup on every exit path. -/
theorem scratch_dir_survives_error :
    (process_apk emptyStrMap "a1" (Except.ok [("f1", Except.error ())])).2 = true
    ∧ (process_apk emptyStrMap "a1" (Except.ok [("f1", Except.error ())])).1
      = Except.error () :=
  ⟨rfl, rfl⟩

/-- C3 (amended): the scratch directory is gone after per-archive processing
exactly when processing completed normally; on a propagating error (unzip
failure or extractor failure on a contained file) it survives, because
shutil.rmtree is only reached on the success path. -/
theorem scratch_dir_removed_iff_success (m : StrMap) (apk : String)
    (uz : Except Unit (List (String × Except Unit (Finset String)))) :
    (process_apk m apk uz).2 = false
      ↔ ∃ r, (process_apk m apk uz).1 = Except.ok r := by
  cases uz with
  | error e => simp [process_apk]
  | ok files =>
    cases hw : walk_files apk m ∅ files with
    | error e => simp [process_apk, hw]
    | ok r => simp [process_apk, hw]

/-- C4 counterexample: the two orders of the same pair of per-archive sets,
one empty and one a singleton, give different final running intersections, so
processing order does matter for the final result. -/
theorem batch_common_order_dependent :
    ([(∅ : Finset String), {"a"}].Perm [({"a"} : Finset String), ∅])
    ∧ batch_common [(∅ : Finset String), {"a"}]
      ≠ batch_common [({"a"} : Finset String), ∅] :=
  ⟨List.Perm.swap _ _ _, by decide⟩

/-- C5: when dexstrings exits with a failure (CalledProcessError), the adapter
returns the empty set, and the function emits no diagnostic at all on any
input, so the failure is swallowed locally and never surfaced or logged. -/
theorem dexstrings_failure_swallowed :
    (∀ e : Unit, get_from_dexstrings (Except.error e) = (∅, []))
    ∧ ∀ output : Except Unit (List String), (get_from_dexstrings output).2 = [] :=
  ⟨fun e => rfl, fun output => by cases output <;> rfl⟩

/-- C7: the adapter's output is the union of the dexstrings set and the
strings-cmd set; the strings-cmd set is exactly the per-line strip image,
while a dexstrings payload keeps its surrounding whitespace after marker
stripping (witnessed on a line whose payload is a space-padded single char). -/
theorem extractor_union_correct (dexOut : Except Unit (List String))
    (lines : List String) :
    get_strings_from_file dexOut (Except.ok lines)
      = Except.ok ((get_from_dexstrings dexOut).1 ∪ (lines.map pyStrip).toFinset)
    ∧ get_from_strings_cmd (Except.ok lines)
      = Except.ok ((lines.map pyStrip).toFinset)
    ∧ dexLineToString "7 | 3 | 2 | .: a :." = " a "
    ∧ pyStrip " a " = "a" := by
  refine ⟨rfl, rfl, by decide, by decide⟩

/-- C8: with zero archives the run completes normally (exit status 0), the
result set is empty, and exactly one warning is emitted. -/
theorem empty_batch_warns :
    main_run [] = Except.ok (emptyStrMap, (∅ : Finset String), ["No common strings found"])
    ∧ exit_code (main_run []) = 0
    ∧ (["No common strings found"] : List String).length = 1 := by
  refine ⟨by simp [main_run, run_loop], by simp [main_run, run_loop, exit_code], rfl⟩

/-- C6: for a minimum-length string that parses to n, filter_by_size returns
exactly the subset of strings of length at least n: the result is the filter
of the input, hence a subset; every survivor has length at least n; running
the filter again returns the same set; and the empty set is handled without
error. -/
theorem filter_by_size_correct (S : Finset String) (w : String) (n : Int)
    (h : pyParseInt w = some n) :
    filter_by_size S w
      = Except.ok (S.filter (fun s => ¬ ((s.length : Int) < n)))
    ∧ S.filter (fun s => ¬ ((s.length : Int) < n)) ⊆ S
    ∧ (∀ s ∈ S.filter (fun s => ¬ ((s.length : Int) < n)), n ≤ (s.length : Int))
    ∧ filter_by_size (S.filter (fun s => ¬ ((s.length : Int) < n))) w
      = Except.ok (S.filter (fun s => ¬ ((s.length : Int) < n)))
    ∧ filter_by_size (∅ : Finset String) w = Except.ok ∅ := by
  have hmem : ∀ s ∈ S.filter (fun s => ¬ ((s.length : Int) < n)),
      ¬ ((s.length : Int) < n) := by
    intro s hs
    exact (Finset.mem_filter.mp hs).2
  refine ⟨?_, Finset.filter_subset _ _, ?_, ?_, by simp [filter_by_size]⟩
  · by_cases hS : S = ∅
    · subst hS
      simp [filter_by_size]
    · simp [filter_by_size, hS, h]
  · intro s hs
    exact not_lt.mp (hmem s hs)
  · by_cases hR : S.filter (fun s => ¬ ((s.length : Int) < n)) = ∅
    · rw [hR]
      simp [filter_by_size]
    · have hid : (S.filter (fun s => ¬ ((s.length : Int) < n))).filter
          (fun s => ¬ ((s.length : Int) < n))
          = S.filter (fun s => ¬ ((s.length : Int) < n)) :=
        Finset.filter_eq_self.mpr hmem
      have hstep : filter_by_size (S.filter (fun s => ¬ ((s.length : Int) < n))) w
          = Except.ok ((S.filter (fun s => ¬ ((s.length : Int) < n))).filter
              (fun s => ¬ ((s.length : Int) < n))) := by
        unfold filter_by_size
        rw [if_neg hR, h]
      rw [hstep, hid]

/-- Witness for C6 at S = one three-char string, minimum length string 2. -/
theorem filter_by_size_correct_witness :
    pyParseInt "2" = some 2
    ∧ (filter_by_size {"abc"} "2"
        = Except.ok (Finset.filter (fun s => ¬ ((s.length : Int) < 2)) {"abc"})
      ∧ Finset.filter (fun s => ¬ ((s.length : Int) < 2)) {"abc"} ⊆ {"abc"}
      ∧ (∀ s ∈ Finset.filter (fun s => ¬ ((s.length : Int) < 2)) ({"abc"} : Finset String),
          (2 : Int) ≤ (s.length : Int))
      ∧ filter_by_size (Finset.filter (fun s => ¬ ((s.length : Int) < 2)) {"abc"}) "2"
        = Except.ok (Finset.filter (fun s => ¬ ((s.length : Int) < 2)) {"abc"})
      ∧ filter_by_size (∅ : Finset String) "2" = Except.ok ∅) :=
  ⟨by decide, filter_by_size_correct {"abc"} "2" 2 (by decide)⟩

/-- C10: when the minimum-length string does not parse as an integer,
filter_by_size fails (ValueError) on every nonempty set but returns the empty
set unchanged, because int(strings_len) sits inside the loop over the set and
is never evaluated when the set is empty. -/
theorem filter_by_size_bad_len (S : Finset String) (w : String)
    (hw : pyParseInt w = none) :
    (S ≠ ∅ → filter_by_size S w = Except.error ())
    ∧ filter_by_size (∅ : Finset String) w = Except.ok ∅ := by
  constructor
  · intro hS
    simp [filter_by_size, hS, hw]
  · simp [filter_by_size]

/-- Witness for C10 at the unparsable minimum-length string abc. -/
theorem filter_by_size_bad_len_witness :
    pyParseInt "abc" = none
    ∧ ((({"x"} : Finset String) ≠ ∅ → filter_by_size {"x"} "abc" = Except.error ())
      ∧ filter_by_size (∅ : Finset String) "abc" = Except.ok ∅) :=
  ⟨by decide, filter_by_size_bad_len {"x"} "abc" (by decide)⟩

/-- Folding plain intersection only shrinks the accumulator. -/
lemma foldl_inter_subset :
    ∀ (l : List (Finset String)) (c : Finset String),
      l.foldl (fun a b => a ∩ b) c ⊆ c := by
  intro l
  induction l with
  | nil =>
    intro c
    exact Finset.Subset.refl c
  | cons s rest ih =>
    intro c
    simp only [List.foldl_cons]
    exact Finset.Subset.trans (ih (c ∩ s)) Finset.inter_subset_left

/-- Membership in a fold of plain intersections. -/
lemma mem_foldl_inter :
    ∀ (l : List (Finset String)) (c : Finset String) (y : String),
      y ∈ l.foldl (fun a b => a ∩ b) c ↔ y ∈ c ∧ ∀ s ∈ l, y ∈ s := by
  intro l
  induction l with
  | nil =>
    intro c y
    simp
  | cons s rest ih =>
    intro c y
    simp only [List.foldl_cons]
    rw [ih]
    simp [Finset.mem_inter, List.forall_mem_cons, and_assoc]

/-- As long as the plain-intersection fold stays away from the empty set, the
program's fold with its emptiness reseeding agrees with it. -/
lemma foldl_step_eq_inter :
    ∀ (l : List (Finset String)) (c : Finset String),
      l.foldl (fun a b => a ∩ b) c ≠ ∅ →
      l.foldl step_common c = l.foldl (fun a b => a ∩ b) c := by
  intro l
  induction l with
  | nil =>
    intro c h
    rfl
  | cons s rest ih =>
    intro c h
    simp only [List.foldl_cons] at h ⊢
    have hc : c ≠ ∅ := by
      intro hc
      subst hc
      have h0 : rest.foldl (fun a b => a ∩ b) (∅ ∩ s) ⊆ ∅ ∩ s :=
        foldl_inter_subset rest (∅ ∩ s)
      rw [Finset.empty_inter] at h0
      exact h (Finset.subset_empty.mp h0)
    have hstep : step_common c s = c ∩ s := by
      simp [step_common, hc]
    rw [hstep]
    exact ih (c ∩ s) h

/-- When some string belongs to every per-archive set, membership in the
program's running intersection is membership in every set. -/
lemma batch_common_mem_nonempty :
    ∀ (l : List (Finset String)), l ≠ [] → ∀ x : String, (∀ t ∈ l, x ∈ t) →
      ∀ y : String, (y ∈ batch_common l ↔ ∀ t ∈ l, y ∈ t) := by
  intro l hl x hx y
  cases l with
  | nil => exact absurd rfl hl
  | cons s rest =>
    unfold batch_common
    simp only [List.foldl_cons]
    have hstep : step_common ∅ s = s := by
      simp [step_common]
    rw [hstep]
    have hxmem : x ∈ rest.foldl (fun a b => a ∩ b) s := by
      rw [mem_foldl_inter]
      exact ⟨hx s (List.mem_cons_self _ _), fun t ht => hx t (List.mem_cons_of_mem _ ht)⟩
    have hne : rest.foldl (fun a b => a ∩ b) s ≠ ∅ := Finset.ne_empty_of_mem hxmem
    rw [foldl_step_eq_inter rest s hne, mem_foldl_inter]
    simp [List.forall_mem_cons]

/-- C4 (amended): when some string is common to every per-archive set (so the
running intersection never empties mid-run and the reseeding slip cannot
fire), any processing order of the same archives yields the same final
running intersection. -/
theorem batch_common_perm_invariant (l1 l2 : List (Finset String))
    (hp : l1.Perm l2) (x : String) (hx : ∀ t ∈ l1, x ∈ t) :
    batch_common l1 = batch_common l2 := by
  by_cases h1 : l1 = []
  · subst h1
    have h2 : l2 = [] := hp.symm.eq_nil
    rw [h2]
  · have h2 : l2 ≠ [] := by
      intro h2
      subst h2
      exact h1 hp.eq_nil
    have hx2 : ∀ t ∈ l2, x ∈ t := fun t ht => hx t (hp.mem_iff.mpr ht)
    apply Finset.ext
    intro y
    rw [batch_common_mem_nonempty l1 h1 x hx y,
      batch_common_mem_nonempty l2 h2 x hx2 y]
    constructor
    · intro hy t ht
      exact hy t (hp.mem_iff.mpr ht)
    · intro hy t ht
      exact hy t (hp.mem_iff.mp ht)

/-- Witness for the amended C4: swapping two archives whose sets share the
string a gives the same running intersection. -/
theorem batch_common_perm_invariant_witness :
    ([({"a", "b"} : Finset String), {"a"}].Perm [({"a"} : Finset String), {"a", "b"}])
    ∧ (∀ t ∈ [({"a", "b"} : Finset String), {"a"}], "a" ∈ t)
    ∧ batch_common [({"a", "b"} : Finset String), {"a"}]
      = batch_common [({"a"} : Finset String), {"a", "b"}] :=
  ⟨List.Perm.swap _ _ _, by decide,
    batch_common_perm_invariant _ _ (List.Perm.swap _ _ _) "a" (by decide)⟩

/-- The fold step never adds strings beyond the current archive's set. -/
lemma step_common_subset (c cur : Finset String) : step_common c cur ⊆ cur := by
  unfold step_common
  split
  · exact Finset.Subset.refl _
  · exact Finset.inter_subset_right

/-- Walking an archive's files only grows the map's key set, and the archive's
accumulated string set ends up recorded among the keys. -/
lemma walk_files_inv (apk : String) :
    ∀ (files : List (String × Except Unit (Finset String))) (m : StrMap)
      (cur : Finset String) (m2 : StrMap) (cur2 : Finset String),
      walk_files apk m cur files = Except.ok (m2, cur2) →
      m.keys ⊆ m2.keys ∧ cur2 ⊆ cur ∪ m2.keys := by
  intro files
  induction files with
  | nil =>
    intro m cur m2 cur2 h
    simp only [walk_files, Except.ok.injEq, Prod.mk.injEq] at h
    rw [← h.1, ← h.2]
    exact ⟨Finset.Subset.refl _, Finset.subset_union_left⟩
  | cons fe rest ih =>
    intro m cur m2 cur2 h
    obtain ⟨fp, res⟩ := fe
    cases res with
    | error e => simp [walk_files] at h
    | ok strings =>
      simp only [walk_files] at h
      have hrec := ih (add_strings_to_map m strings fp apk) (cur ∪ strings) m2 cur2 h
      have hkeys : (add_strings_to_map m strings fp apk).keys = m.keys ∪ strings := rfl
      rw [hkeys] at hrec
      have hms : m.keys ∪ strings ⊆ m2.keys := hrec.1
      constructor
      · exact Finset.Subset.trans Finset.subset_union_left hms
      · intro y hy
        rcases Finset.mem_union.mp (hrec.2 hy) with hy2 | hy2
        · rcases Finset.mem_union.mp hy2 with hy3 | hy3
          · exact Finset.mem_union_left _ hy3
          · exact Finset.mem_union_right _ (hms (Finset.mem_union_right _ hy3))
        · exact Finset.mem_union_right _ hy2

/-- Through the archive loop the key set grows and, as long as the running set
started inside the keys, it stays inside the keys. -/
lemma run_loop_inv :
    ∀ (apks : List (String × Except Unit (List (String × Except Unit (Finset String)))))
      (m : StrMap) (c : Finset String) (m2 : StrMap) (c2 : Finset String),
      run_loop m c apks = Except.ok (m2, c2) →
      m.keys ⊆ m2.keys ∧ (c ⊆ m.keys → c2 ⊆ m2.keys) := by
  intro apks
  induction apks with
  | nil =>
    intro m c m2 c2 h
    simp only [run_loop, Except.ok.injEq, Prod.mk.injEq] at h
    rw [← h.1, ← h.2]
    exact ⟨Finset.Subset.refl _, fun hc => hc⟩
  | cons a rest ih =>
    intro m c m2 c2 h
    obtain ⟨apk, uz⟩ := a
    cases uz with
    | error e => simp [run_loop, process_apk] at h
    | ok files =>
      cases hw : walk_files apk m ∅ files with
      | error e => simp [run_loop, process_apk, hw] at h
      | ok r =>
        obtain ⟨m1, cur⟩ := r
        simp only [run_loop, process_apk, hw] at h
        have hinv := walk_files_inv apk files m ∅ m1 cur hw
        have hih := ih m1 (step_common c cur) m2 c2 h
        have hcur : cur ⊆ m1.keys := by
          have h2 := hinv.2
          rw [Finset.empty_union] at h2
          exact h2
        refine ⟨Finset.Subset.trans hinv.1 hih.1, fun hc => hih.2 ?_⟩
        exact Finset.Subset.trans (step_common_subset c cur) hcur

/-- Printing succeeds for any enumeration whose strings all sit in the key set. -/
lemma print_strings_isSome :
    ∀ (l : List String) (m : StrMap), (∀ s ∈ l, s ∈ m.keys) →
      (print_strings l m).isSome = true := by
  intro l
  induction l with
  | nil =>
    intro m h
    rfl
  | cons s rest ih =>
    intro m h
    have hs : s ∈ m.keys := h s (List.mem_cons_self s rest)
    have hr := ih m (fun t ht => h t (List.mem_cons_of_mem s ht))
    cases hpr : print_strings rest m with
    | none =>
      rw [hpr] at hr
      simp at hr
    | some v => simp [print_strings, hs, hpr]

/-- A normally completing run determines the loop's final map and running set. -/
lemma main_run_ok
    (apks : List (String × Except Unit (List (String × Except Unit (Finset String)))))
    (m : StrMap) (c : Finset String) (w : List String)
    (h : main_run apks = Except.ok (m, c, w)) :
    run_loop emptyStrMap ∅ apks = Except.ok (m, c) := by
  unfold main_run at h
  cases hr : run_loop emptyStrMap ∅ apks with
  | error e =>
    rw [hr] at h
    exact absurd h (by simp)
  | ok r =>
    obtain ⟨m0, c0⟩ := r
    rw [hr] at h
    simp only [Except.ok.injEq, Prod.mk.injEq] at h
    rw [h.1, h.2.1]

/-- C9: after a normally completing batch, every string in the final common
set is a key of the provenance map (each element entered via some per-file set
recorded in the map before being unioned in), so provenance-mode printing
performs no failing lookup on any enumeration of the surviving strings. -/
theorem provenance_lookup_safe
    (apks : List (String × Except Unit (List (String × Except Unit (Finset String)))))
    (m : StrMap) (common : Finset String) (w : List String)
    (h : main_run apks = Except.ok (m, common, w)) :
    common ⊆ m.keys
    ∧ ∀ l : List String, (∀ s ∈ l, s ∈ common) →
        (print_strings l m).isSome = true := by
  have hr := main_run_ok apks m common w h
  have hinv := run_loop_inv apks emptyStrMap ∅ m common hr
  have hsub : common ⊆ m.keys := hinv.2 (Finset.empty_subset _)
  exact ⟨hsub, fun l hl => print_strings_isSome l m (fun s hs => hsub (hl s hs))⟩

/-- Witness for C9 on a one-archive, one-file batch. -/
theorem provenance_lookup_safe_witness :
    main_run apks0 = Except.ok (m0, ({"hello"} : Finset String), [])
    ∧ (({"hello"} : Finset String) ⊆ m0.keys
      ∧ ∀ l : List String, (∀ s ∈ l, s ∈ ({"hello"} : Finset String)) →
          (print_strings l m0).isSome = true) := by
  have hmain : main_run apks0 = Except.ok (m0, ({"hello"} : Finset String), []) := by
    rfl
  exact ⟨hmain, provenance_lookup_safe apks0 m0 {"hello"} [] hmain⟩

end SigHelper
